import Mathlib

/-!
Verification of the capture-and-transcription controller of the
Speech-to-text repository.

The development shallowly embeds the only non-trivial original logic of
the repository:

* `AudioTranscriptionThread` of `whisper_typing.py` (identical, up to the
  GUI, to the copy in `whisper_typing_hf.py`): the audio callback, the
  frame queue, the buffering / trigger policy of the `run` loop, the
  per-segment text handling and typing, `stop`, and `toggle_pause`;
* `HuggingFaceWhisperModel.transcribe` of `huggingface_whisper.py`: the
  normalisation of the two HTTP response shapes and its error handling.

Sample values (32-bit floats in the source) are modelled as rationals;
the gating logic only compares levels, so the embedding is exact on the
inputs the claims mention.  Machine words play no role here.
-/

namespace WhisperTyping

/-- One fixed-size block of mono PCM samples handed to the controller by
the capture device (`indata` in `callback`). -/
structure Frame where
  samples : List ℚ
deriving DecidableEq, Repr

/-- Mean absolute level of a frame, `np.abs(chunk).mean()` in the source
(`whisper_typing.py` lines 253 and 294).  For an empty frame the rational
division by zero yields 0; that edge case is never produced by the audio
device and is exercised by no claim. -/
def level (f : Frame) : ℚ :=
  (f.samples.map (fun x => |x|)).sum / (f.samples.length : ℚ)

/-- Buffer bound `self.buffer_max_size = 5` (`whisper_typing.py` line 202). -/
def bufferMaxSize : Nat := 5

/-- Trigger threshold `self.trigger_level = 0.01` (`whisper_typing.py`
line 203). -/
def triggerLevel : ℚ := 1 / 100

/-- Embedding of Python's `str.strip()` restricted to ASCII whitespace
(the only whitespace occurring in the claims): drop leading and trailing
whitespace characters.  Defined structurally over the character list so
that it evaluates inside the kernel. -/
def pyStrip (s : String) : String :=
  ⟨((s.data.dropWhile Char.isWhitespace).reverse.dropWhile
      Char.isWhitespace).reverse⟩

/-- Per-segment text handling of the `run` loop (`whisper_typing.py`
lines 330-346): for each returned segment, strip its text; when the
stripped text is non-empty, emit it on `transcription_done` and, when
auto-type is enabled, type `text + " "`.  Returns the emitted texts and
the typed strings, in order. -/
def processSegments (autoType : Bool) : List String → List String × List String
  | [] => ([], [])
  | seg :: rest =>
    let text := pyStrip seg
    let (em, ty) := processSegments autoType rest
    if text ≠ "" then
      (text :: em, (if autoType then [text ++ " "] else []) ++ ty)
    else
      (em, ty)

/-- Result of one call of the pluggable backend: either a list of segment
texts (the controller only ever reads `segment.text`), or a raised
exception. -/
inductive TResult where
  | ok (segs : List String)
  | err
deriving DecidableEq

/-- A transcription backend, as the controller consumes it. -/
abbrev Backend := List Frame → TResult

/-- State shared between the audio callback, the `run` loop, `stop` and
`toggle_pause`: the `running` and `paused` flags, the `auto_type` flag,
the intake `audio_queue` and the `audio_buffer`. -/
structure SysState where
  running  : Bool
  paused   : Bool
  autoType : Bool
  queue    : List Frame
  buffer   : List Frame
deriving DecidableEq, Repr

/-- State at the top of `run` once the stream is open: `running = True`,
not paused, auto-type on (its default), empty queue and buffer. -/
def initState : SysState :=
  { running := true, paused := false, autoType := true
    queue := [], buffer := [] }

/-- Events driving the controller: an invocation of the audio callback
with a fresh frame, one iteration of the `run` loop (`queue.get` with
timeout), a `toggle_pause()` call, and a `stop()` call (which sets
`running = False`; the loop quiesces at its next check). -/
inductive Event where
  | submit (f : Frame)
  | poll
  | togglePause
  | stop
deriving DecidableEq

/-- Observable outputs accumulated along a trace: `audio_level_update`
emissions, backend invocations (each with the flushed chunk it received),
`transcription_done` emissions, and strings typed by the keyboard. -/
structure Output where
  levels  : List ℚ
  calls   : List (List Frame)
  emitted : List String
  typed   : List String
deriving DecidableEq

def Output.empty : Output := ⟨[], [], [], []⟩

def Output.append (a b : Output) : Output :=
  ⟨a.levels ++ b.levels, a.calls ++ b.calls,
   a.emitted ++ b.emitted, a.typed ++ b.typed⟩

/-- Output of one triggered backend call on a flushed chunk
(`whisper_typing.py` lines 324-346): the chunk is passed to
`model.transcribe`; on success the segments are processed, on a raised
exception the `except` clause logs and nothing is emitted. -/
def callOutput (backend : Backend) (autoType : Bool)
    (buf : List Frame) : Output :=
  match backend buf with
  | .ok segs =>
    let (em, ty) := processSegments autoType segs
    ⟨[], [buf], em, ty⟩
  | .err => ⟨[], [buf], [], []⟩

/-- One step of the controller.

`submit`: the audio callback (`whisper_typing.py` lines 247-261) emits
the mean absolute level unconditionally and enqueues the frame only when
`not self.paused and self.running`.

`poll`: one iteration of the `run` loop (lines 285-360).  Nothing happens
once `running` is false (the loop has exited).  An empty queue is the
`queue.Empty` timeout, `continue`.  A dequeued frame is dropped when
paused; otherwise it is appended to the buffer, and a transcription is
triggered when the buffer length has reached `buffer_max_size` or the
frame level exceeds `trigger_level * 3`; on trigger the buffered frames
are flushed into one chunk and the buffer is reset before the call.

`togglePause` and `stop` embed `toggle_pause()` and the flag write of
`stop()`. -/
def stepEvent (backend : Backend) (s : SysState) : Event → SysState × Output
  | .submit f =>
    let out : Output := ⟨[level f], [], [], []⟩
    if ¬ s.paused ∧ s.running then
      ({ s with queue := s.queue ++ [f] }, out)
    else
      (s, out)
  | .togglePause => ({ s with paused := ¬ s.paused }, Output.empty)
  | .stop => ({ s with running := false }, Output.empty)
  | .poll =>
    if s.running then
      match s.queue with
      | [] => (s, Output.empty)
      | f :: rest =>
        if s.paused then
          ({ s with queue := rest }, Output.empty)
        else
          let buf := s.buffer ++ [f]
          if bufferMaxSize ≤ buf.length ∨ triggerLevel * 3 < level f then
            ({ s with queue := rest, buffer := [] },
             callOutput backend s.autoType buf)
          else
            ({ s with queue := rest, buffer := buf }, Output.empty)
    else
      (s, Output.empty)

/-- A whole trace of events, accumulating outputs in order. -/
def runEvents (backend : Backend) : List Event → SysState → SysState × Output
  | [], s => (s, Output.empty)
  | e :: es, s =>
    let p := stepEvent backend s e
    let q := runEvents backend es p.1
    (q.1, p.2.append q.2)

/-- The frames carried by the submit events of a trace, in order. -/
def submittedFrames (events : List Event) : List Frame :=
  events.filterMap (fun e =>
    match e with
    | .submit f => some f
    | _ => none)

/-- The frames a trace gets the controller to accept: frames dequeued by
a poll while running and not paused (these are exactly the frames the
`run` loop appends to the audio buffer). -/
def acceptedFrames (backend : Backend) : List Event → SysState → List Frame
  | [], _ => []
  | e :: es, s =>
    let new : List Frame :=
      match e with
      | .poll =>
        if s.running then
          match s.queue with
          | [] => []
          | f :: _ => if s.paused then [] else [f]
        else []
      | _ => []
    new ++ acceptedFrames backend es (stepEvent backend s e).1

/-- A backend stub that always succeeds with no segments. -/
def okBackend : Backend := fun _ => .ok []

/-- A backend stub whose call always raises. -/
def failBackend : Backend := fun _ => .err

/-- A one-sample frame of mean absolute level 0.005 (below
`trigger_level = 0.01`). -/
def fQuiet : Frame := ⟨[1 / 200]⟩

/-- A one-sample frame of mean absolute level 0.05 (above
`trigger_level * 3 = 0.03`). -/
def fLoud : Frame := ⟨[1 / 20]⟩

/-- A one-sample frame of mean absolute level 0.02 (above
`trigger_level` but below `trigger_level * 3`). -/
def fMid : Frame := ⟨[1 / 50]⟩

/-- The canonical interleaving of the claims' scenarios: each frame is
delivered by the audio callback and then consumed by one iteration of
the `run` loop. -/
def framePairs : List Frame → List Event
  | [] => []
  | f :: fs => .submit f :: .poll :: framePairs fs

end WhisperTyping

namespace HFWhisper

/-- Segment shape produced by `huggingface_whisper.py` (class
`WhisperSegment`, lines 18-24).  The constant `words = []` field carries
no information and is omitted. -/
structure WhisperSegment where
  text  : String
  start : ℚ
  «end» : ℚ
deriving DecidableEq, Repr

/-- Metadata shape produced by `huggingface_whisper.py` (class
`WhisperInfo`, lines 26-30). -/
structure WhisperInfo where
  language : String
  language_probability : ℚ
deriving DecidableEq, Repr

/-- The fields of a JSON object response that
`HuggingFaceWhisperModel.transcribe` reads: `"text"` and `"language"`,
each possibly absent. -/
structure JDict where
  text     : Option String
  language : Option String
deriving DecidableEq, Repr

/-- The fields of one item of a JSON array response that `transcribe`
reads: `"text"`, `"start"`, `"end"` and `"language"`, each possibly
absent. -/
structure JSeg where
  text     : Option String
  start    : Option ℚ
  «end»    : Option ℚ
  language : Option String
deriving DecidableEq, Repr

/-- The parsed JSON body of an API response, as `transcribe`
discriminates it: a JSON object, a JSON array, or any other JSON value
(carried by its string rendering, which is all the code uses of it). -/
inductive ApiJson where
  | dict (d : JDict)
  | list (l : List JSeg)
  | other (s : String)
deriving DecidableEq, Repr

/-- Models Python's `str(result)` in the unknown-format fallback branch
(`huggingface_whisper.py` line 137).  No claim exercises this branch and
nothing downstream inspects the rendering; the embedding renders the
abstracted fields in a fixed format. -/
def strRepr : ApiJson → String
  | .dict d =>
    "\x7b" ++
      (match d.text with
       | some t => "text: " ++ t
       | none => "") ++ "\x7d"
  | .list _ => "[...]"
  | .other s => s

/-- Response-shape normalisation of `HuggingFaceWhisperModel.transcribe`
(`huggingface_whisper.py` lines 120-142), applied to a successfully
parsed JSON body:

* an object with a `"text"` key becomes one segment with `start = end =
  0.0`, language defaulting to `"en"`, probability 1.0;
* a non-empty array whose first item has a `"text"` key becomes one
  segment per item, `start`/`end` defaulting to `0.0`, language taken
  from the first item defaulting to `"en"`; an item after the first
  without `"text"` raises `KeyError`, which the surrounding `except`
  turns into the empty result;
* anything else becomes one segment holding `str(result)`, with info
  `("en", 0.0)`. -/
def parseResult (j : ApiJson) : List WhisperSegment × WhisperInfo :=
  match j with
  | .dict d =>
    match d.text with
    | some t => ([⟨t, 0, 0⟩], ⟨d.language.getD "en", 1⟩)
    | none => ([⟨strRepr j, 0, 0⟩], ⟨"en", 0⟩)
  | .list [] => ([⟨strRepr j, 0, 0⟩], ⟨"en", 0⟩)
  | .list (i :: rest) =>
    match i.text with
    | none => ([⟨strRepr j, 0, 0⟩], ⟨"en", 0⟩)
    | some _ =>
      if (i :: rest).all (fun it => it.text.isSome) then
        ((i :: rest).map
          (fun it => ⟨it.text.getD "", it.start.getD 0, it.«end».getD 0⟩),
         ⟨i.language.getD "en", 1⟩)
      else
        ([], ⟨"en", 0⟩)
  | .other s => ([⟨s, 0, 0⟩], ⟨"en", 0⟩)

/-- Outcome of the HTTP round trip inside `transcribe`: either
`requests.post` (or anything before the status check) raised, or a
response arrived with a status code and a body that `response.json()`
either parses (`some`) or fails to parse (`none`, a raised
`JSONDecodeError`). -/
inductive HttpOutcome where
  | exn
  | ok (status : Nat) (body : Option ApiJson)
deriving DecidableEq, Repr

/-- The error handling of `HuggingFaceWhisperModel.transcribe`
(`huggingface_whisper.py` lines 101-147) around `parseResult`: a raised
request, a non-200 status, or an unparsable body all yield the empty
segment list with info `("en", 0.0)`; a parsed 200 body is normalised by
`parseResult`.  The function is total: no API failure propagates (the
only raise in the source, a missing `soundfile` dependency, happens
before the request and is outside this model). -/
def hfTranscribe (resp : HttpOutcome) : List WhisperSegment × WhisperInfo :=
  match resp with
  | .exn => ([], ⟨"en", 0⟩)
  | .ok status body =>
    if status ≠ 200 then ([], ⟨"en", 0⟩)
    else
      match body with
      | none => ([], ⟨"en", 0⟩)
      | some j => parseResult j

end HFWhisper

/-! ### Basic lemmas about outputs and traces -/

namespace WhisperTyping

@[simp]
theorem Output.append_levels (a b : Output) :
    (a.append b).levels = a.levels ++ b.levels := rfl

@[simp]
theorem Output.append_calls (a b : Output) :
    (a.append b).calls = a.calls ++ b.calls := rfl

@[simp]
theorem Output.append_emitted (a b : Output) :
    (a.append b).emitted = a.emitted ++ b.emitted := rfl

@[simp]
theorem Output.append_typed (a b : Output) :
    (a.append b).typed = a.typed ++ b.typed := rfl

@[simp]
theorem Output.empty_levels : (Output.empty).levels = [] := rfl

@[simp]
theorem Output.empty_calls : (Output.empty).calls = [] := rfl

@[simp]
theorem Output.empty_emitted : (Output.empty).emitted = [] := rfl

@[simp]
theorem Output.empty_typed : (Output.empty).typed = [] := rfl

theorem Output.append_assoc (a b c : Output) :
    (a.append b).append c = a.append (b.append c) := by
  simp [Output.append, List.append_assoc]

@[simp]
theorem Output.empty_append (a : Output) : Output.empty.append a = a := by
  simp [Output.append, Output.empty]

@[simp]
theorem Output.append_empty (a : Output) : a.append Output.empty = a := by
  simp [Output.append, Output.empty]

theorem callOutput_calls (b : Backend) (t : Bool) (buf : List Frame) :
    (callOutput b t buf).calls = [buf] := by
  cases hb : b buf <;> simp [callOutput, hb]

theorem callOutput_levels (b : Backend) (t : Bool) (buf : List Frame) :
    (callOutput b t buf).levels = [] := by
  cases hb : b buf <;> simp [callOutput, hb]

theorem runEvents_append (b : Backend) (l1 l2 : List Event) (s : SysState) :
    runEvents b (l1 ++ l2) s =
      ((runEvents b l2 (runEvents b l1 s).1).1,
       (runEvents b l1 s).2.append (runEvents b l2 (runEvents b l1 s).1).2) := by
  induction l1 generalizing s with
  | nil => simp [runEvents]
  | cons e es ih => simp [runEvents, ih, Output.append_assoc]

theorem level_single (x : ℚ) : level ⟨[x]⟩ = |x| := by
  simp [level]

theorem level_fQuiet : level fQuiet = 1 / 200 := by
  rw [fQuiet, level_single]; norm_num

theorem level_fLoud : level fLoud = 1 / 20 := by
  rw [fLoud, level_single]; norm_num

theorem level_fMid : level fMid = 1 / 50 := by
  rw [fMid, level_single]; norm_num

theorem fQuiet_not_loud : ¬ (triggerLevel * 3 < level fQuiet) := by
  rw [level_fQuiet, triggerLevel]; norm_num

theorem fLoud_loud : triggerLevel * 3 < level fLoud := by
  rw [level_fLoud, triggerLevel]; norm_num

theorem fMid_not_loud : ¬ (triggerLevel * 3 < level fMid) := by
  rw [level_fMid, triggerLevel]; norm_num

end WhisperTyping

namespace WhisperTyping

theorem stepEvent_not_running (b : Backend) (s : SysState) (e : Event)
    (h : s.running = false) :
    (stepEvent b s e).1.running = false ∧ (stepEvent b s e).2.calls = [] := by
  cases e <;> simp [stepEvent, h]

theorem runEvents_not_running (b : Backend) (es : List Event) (s : SysState)
    (h : s.running = false) :
    (runEvents b es s).1.running = false ∧ (runEvents b es s).2.calls = [] := by
  induction es generalizing s with
  | nil => simpa [runEvents] using h
  | cons e rest ih =>
    have hs := stepEvent_not_running b s e h
    have := ih (stepEvent b s e).1 hs.1
    simp [runEvents, this, hs.2]

theorem stepEvent_paused_calls (b : Backend) (s : SysState) (e : Event)
    (h : s.paused = true) :
    (stepEvent b s e).2.calls = [] := by
  cases e with
  | submit f =>
    by_cases hr : s.running = true <;> simp [stepEvent, h, hr]
  | togglePause => simp [stepEvent]
  | stop => simp [stepEvent]
  | poll =>
    by_cases hr : s.running = true
    · cases hq : s.queue with
      | nil => simp [stepEvent, hr, hq]
      | cons f rest => simp [stepEvent, hr, hq, h]
    · simp [stepEvent, hr]

theorem stepEvent_paused_submit (b : Backend) (s : SysState) (f : Frame)
    (h : s.paused = true) :
    stepEvent b s (.submit f) = (s, ⟨[level f], [], [], []⟩) := by
  simp [stepEvent, h]

end WhisperTyping

namespace WhisperTyping

theorem stepEvent_backend_agnostic (b1 b2 : Backend) (s : SysState) (e : Event) :
    (stepEvent b1 s e).1 = (stepEvent b2 s e).1 ∧
    (stepEvent b1 s e).2.calls = (stepEvent b2 s e).2.calls ∧
    (stepEvent b1 s e).2.levels = (stepEvent b2 s e).2.levels := by
  cases e with
  | submit f => by_cases hc : s.paused = false ∧ s.running = true <;> simp [stepEvent, hc]
  | togglePause => simp [stepEvent]
  | stop => simp [stepEvent]
  | poll =>
    by_cases hr : s.running = true
    · cases hq : s.queue with
      | nil => simp [stepEvent, hr, hq]
      | cons f rest =>
        by_cases hp : s.paused = true
        · simp [stepEvent, hr, hq, hp]
        · by_cases ht :
            bufferMaxSize ≤ s.buffer.length + 1 ∨ triggerLevel * 3 < level f
          · simp [stepEvent, hr, hq, hp, ht, callOutput_calls, callOutput_levels]
          · simp [stepEvent, hr, hq, hp, ht]
    · simp [stepEvent, hr]

theorem runEvents_backend_agnostic (b1 b2 : Backend) (es : List Event)
    (s : SysState) :
    (runEvents b1 es s).1 = (runEvents b2 es s).1 ∧
    (runEvents b1 es s).2.calls = (runEvents b2 es s).2.calls ∧
    (runEvents b1 es s).2.levels = (runEvents b2 es s).2.levels := by
  induction es generalizing s with
  | nil => simp [runEvents]
  | cons e rest ih =>
    have hs := stepEvent_backend_agnostic b1 b2 s e
    have hr := ih (stepEvent b2 s e).1
    refine ⟨?_, ?_, ?_⟩ <;>
      simp only [runEvents, Output.append_calls, Output.append_levels,
        hs.1, hs.2.1, hs.2.2, hr.1, hr.2.1, hr.2.2]

theorem stepEvent_err_silent (s : SysState) (e : Event) :
    (stepEvent failBackend s e).2.emitted = [] ∧
    (stepEvent failBackend s e).2.typed = [] := by
  cases e with
  | submit f => by_cases hc : s.paused = false ∧ s.running = true <;> simp [stepEvent, hc]
  | togglePause => simp [stepEvent]
  | stop => simp [stepEvent]
  | poll =>
    by_cases hr : s.running = true
    · cases hq : s.queue with
      | nil => simp [stepEvent, hr, hq]
      | cons f rest =>
        by_cases hp : s.paused = true
        · simp [stepEvent, hr, hq, hp]
        · by_cases ht :
            bufferMaxSize ≤ s.buffer.length + 1 ∨ triggerLevel * 3 < level f
          · simp [stepEvent, hr, hq, hp, ht, callOutput, failBackend]
          · simp [stepEvent, hr, hq, hp, ht]
    · simp [stepEvent, hr]

theorem runEvents_err_silent (es : List Event) (s : SysState) :
    (runEvents failBackend es s).2.emitted = [] ∧
    (runEvents failBackend es s).2.typed = [] := by
  induction es generalizing s with
  | nil => simp [runEvents]
  | cons e rest ih =>
    have hs := stepEvent_err_silent s e
    have hr := ih (stepEvent failBackend s e).1
    refine ⟨?_, ?_⟩ <;>
      simp only [runEvents, Output.append_emitted, Output.append_typed,
        hs.1, hs.2, hr.1, hr.2, List.append_nil]

theorem runEvents_levels_eq (b : Backend) (es : List Event) (s : SysState) :
    (runEvents b es s).2.levels = (submittedFrames es).map level := by
  induction es generalizing s with
  | nil => simp [runEvents, submittedFrames]
  | cons e rest ih =>
    cases e with
    | submit f =>
      by_cases hc : s.paused = false ∧ s.running = true <;>
        simp [runEvents, stepEvent, hc, ih, submittedFrames, List.filterMap_cons]
    | togglePause =>
      simp [runEvents, stepEvent, ih, submittedFrames, List.filterMap_cons]
    | stop =>
      simp [runEvents, stepEvent, ih, submittedFrames, List.filterMap_cons]
    | poll =>
      have hlev : (stepEvent b s .poll).2.levels = [] := by
        by_cases hr2 : s.running = true
        · cases hq : s.queue with
          | nil => simp [stepEvent, hr2, hq]
          | cons f rest2 =>
            by_cases hp : s.paused = true
            · simp [stepEvent, hr2, hq, hp]
            · by_cases ht :
                bufferMaxSize ≤ s.buffer.length + 1 ∨
                  triggerLevel * 3 < level f
              · simp [stepEvent, hr2, hq, hp, ht, callOutput_levels]
              · simp [stepEvent, hr2, hq, hp, ht]
        · simp [stepEvent, hr2]
      have hr := ih (stepEvent b s .poll).1
      simp only [runEvents, Output.append_levels, hlev, hr,
        List.nil_append]
      simp [submittedFrames, List.filterMap_cons]

end WhisperTyping

namespace WhisperTyping

theorem stepEvent_calls_or_buffer (b : Backend) (s : SysState) (e : Event) :
    (stepEvent b s e).2.calls = [] ∨ (stepEvent b s e).1.buffer = [] := by
  cases e with
  | submit f =>
    by_cases hc : s.paused = false ∧ s.running = true <;> simp [stepEvent, hc]
  | togglePause => simp [stepEvent]
  | stop => simp [stepEvent]
  | poll =>
    by_cases hr : s.running = true
    · cases hq : s.queue with
      | nil => simp [stepEvent, hr, hq]
      | cons f rest =>
        by_cases hp : s.paused = true
        · simp [stepEvent, hr, hq, hp]
        · by_cases ht :
            bufferMaxSize ≤ s.buffer.length + 1 ∨ triggerLevel * 3 < level f
          · simp [stepEvent, hr, hq, hp, ht]
          · simp [stepEvent, hr, hq, hp, ht]
    · simp [stepEvent, hr]

theorem runEvents_partition (b : Backend) (es : List Event) (s : SysState) :
    ((runEvents b es s).2.calls).flatten ++ (runEvents b es s).1.buffer
      = s.buffer ++ acceptedFrames b es s := by
  induction es generalizing s with
  | nil => simp [runEvents, acceptedFrames]
  | cons e rest ih =>
    have key :
        ((stepEvent b s e).2.calls).flatten ++ (stepEvent b s e).1.buffer
          = s.buffer ++
            (match e with
             | .poll =>
               if s.running then
                 match s.queue with
                 | [] => []
                 | f :: _ => if s.paused then [] else [f]
               else []
             | _ => []) := by
      cases e with
      | submit f =>
        by_cases hc : s.paused = false ∧ s.running = true <;> simp [stepEvent, hc]
      | togglePause => simp [stepEvent]
      | stop => simp [stepEvent]
      | poll =>
        by_cases hr : s.running = true
        · cases hq : s.queue with
          | nil => simp [stepEvent, hr, hq]
          | cons f rest2 =>
            by_cases hp : s.paused = true
            · simp [stepEvent, hr, hq, hp]
            · by_cases ht :
                bufferMaxSize ≤ s.buffer.length + 1 ∨ triggerLevel * 3 < level f
              · simp [stepEvent, hr, hq, hp, ht, callOutput_calls]
              · simp [stepEvent, hr, hq, hp, ht]
        · simp [stepEvent, hr]
    have hrest := ih (stepEvent b s e).1
    calc ((runEvents b (e :: rest) s).2.calls).flatten
          ++ (runEvents b (e :: rest) s).1.buffer
        = ((stepEvent b s e).2.calls).flatten
            ++ (((runEvents b rest (stepEvent b s e).1).2.calls).flatten
                ++ (runEvents b rest (stepEvent b s e).1).1.buffer) := by
          simp [runEvents, List.append_assoc]
      _ = ((stepEvent b s e).2.calls).flatten
            ++ ((stepEvent b s e).1.buffer
                ++ acceptedFrames b rest (stepEvent b s e).1) := by rw [hrest]
      _ = (((stepEvent b s e).2.calls).flatten
            ++ (stepEvent b s e).1.buffer)
                ++ acceptedFrames b rest (stepEvent b s e).1 := by
          rw [List.append_assoc]
      _ = s.buffer ++ acceptedFrames b (e :: rest) s := by
          rw [key]; simp [acceptedFrames, List.append_assoc]

theorem processSegments_emitted (autoType : Bool) (segs : List String) :
    (processSegments autoType segs).1
      = (segs.map pyStrip).filter (fun t => t ≠ "") := by
  induction segs with
  | nil => simp [processSegments]
  | cons a l ih =>
    by_cases h : pyStrip a = "" <;> simp [processSegments, h, ih]

end WhisperTyping

/-! ### Claim theorems -/

namespace WhisperTyping

theorem fQuiet_subthreshold : level fQuiet < triggerLevel := by
  rw [level_fQuiet, triggerLevel]; norm_num

/-- C1: for every accepted, non-paused frame the `run` loop appends the
frame to the audio buffer and then triggers a transcription exactly when
the buffer length has reached `buffer_max_size = 5` or the frame's mean
absolute level exceeds `trigger_level * 3 = 0.03`; in particular five
consecutive frames at level 0.005 trigger exactly at the fifth frame,
and a single frame at level 0.05 triggers immediately. -/
theorem claim1_trigger_rule (b : Backend) (s : SysState) (f : Frame)
    (rest : List Frame) (hrun : s.running = true) (hpause : s.paused = false)
    (hq : s.queue = f :: rest) :
    ((bufferMaxSize ≤ (s.buffer ++ [f]).length ∨ triggerLevel * 3 < level f) →
      stepEvent b s .poll =
        ({ s with queue := rest, buffer := [] },
         callOutput b s.autoType (s.buffer ++ [f]))
      ∧ (stepEvent b s .poll).2.calls = [s.buffer ++ [f]])
    ∧ (¬ (bufferMaxSize ≤ (s.buffer ++ [f]).length ∨ triggerLevel * 3 < level f) →
      stepEvent b s .poll =
        ({ s with queue := rest, buffer := s.buffer ++ [f] }, Output.empty))
    ∧ (runEvents okBackend
        (framePairs [fQuiet, fQuiet, fQuiet, fQuiet]) initState).2.calls = []
    ∧ (runEvents okBackend
        (framePairs [fQuiet, fQuiet, fQuiet, fQuiet, fQuiet]) initState).2.calls
        = [[fQuiet, fQuiet, fQuiet, fQuiet, fQuiet]]
    ∧ (runEvents okBackend (framePairs [fLoud]) initState).2.calls = [[fLoud]] := by
  refine ⟨fun ht => ?_, fun ht => ?_, ?_, ?_, ?_⟩
  · have ht2 : bufferMaxSize ≤ s.buffer.length + 1 ∨ triggerLevel * 3 < level f := by
      simpa using ht
    simp [stepEvent, hrun, hpause, hq, ht2, callOutput_calls]
  · have ht2 : ¬ (bufferMaxSize ≤ s.buffer.length + 1 ∨ triggerLevel * 3 < level f) := by
      simpa using ht
    simp [stepEvent, hrun, hpause, hq, ht2]
  · simp [framePairs, runEvents, stepEvent, initState, fQuiet_not_loud,
      callOutput, okBackend, processSegments, bufferMaxSize]
  · simp [framePairs, runEvents, stepEvent, initState, fQuiet_not_loud,
      callOutput, okBackend, processSegments, bufferMaxSize]
  · simp [framePairs, runEvents, stepEvent, initState, fLoud_loud,
      callOutput, okBackend, processSegments, bufferMaxSize]

theorem claim1_trigger_rule_witness :
    (stepEvent okBackend { initState with queue := [fLoud] } .poll).2.calls
      = [[fLoud]] := by
  have h := (claim1_trigger_rule okBackend { initState with queue := [fLoud] }
      fLoud [] rfl rfl rfl).1 (Or.inr fLoud_loud)
  simpa [initState] using h.2

/-- C2 counterexample: the code has no silence-run counter.  With the
buffer holding two frames at level 0.02 (audible but below the loud
threshold) followed by consecutive frames at level 0.005 (below
`trigger_level`), the `run` loop already triggers on the third
sub-threshold frame — when the buffer reaches `buffer_max_size = 5` —
and no call at all happens on the fifth sub-threshold frame, contrary to
the claim that the trigger fires on the fifth silent frame. -/
theorem claim2_counterexample :
    (runEvents okBackend
      (framePairs [fMid, fMid, fQuiet, fQuiet, fQuiet]) initState).2.calls
      = [[fMid, fMid, fQuiet, fQuiet, fQuiet]]
    ∧ (runEvents okBackend
        (framePairs [fMid, fMid, fQuiet, fQuiet, fQuiet, fQuiet, fQuiet])
        initState).2.calls
      = [[fMid, fMid, fQuiet, fQuiet, fQuiet]] := by
  constructor <;>
    simp [framePairs, runEvents, stepEvent, initState, fQuiet_not_loud,
      fMid_not_loud, callOutput, okBackend, processSegments, bufferMaxSize]

/-- C2 amended: there is no silence-run counter or `maxSilenceChunks`
force-flush in the code.  After two frames whose level does not exceed
`trigger_level * 3`, consecutive sub-threshold frames trigger a
transcription exactly on the third one — the buffer reaching
`buffer_max_size = 5` — which is no later than the fifth. -/
theorem claim2_amended (b : Backend) (g1 g2 h1 h2 h3 : Frame)
    (hg1 : ¬ (triggerLevel * 3 < level g1))
    (hg2 : ¬ (triggerLevel * 3 < level g2))
    (hs1 : level h1 < triggerLevel) (hs2 : level h2 < triggerLevel)
    (hs3 : level h3 < triggerLevel) :
    (runEvents b (framePairs [g1, g2, h1, h2]) initState).2.calls = []
    ∧ (runEvents b (framePairs [g1, g2, h1, h2, h3]) initState).2.calls
        = [[g1, g2, h1, h2, h3]] := by
  have hlt : triggerLevel < triggerLevel * 3 := by rw [triggerLevel]; norm_num
  have hn1 : ¬ (triggerLevel * 3 < level h1) := by
    intro hc; exact absurd (hc.trans hs1) (not_lt.2 hlt.le)
  have hn2 : ¬ (triggerLevel * 3 < level h2) := by
    intro hc; exact absurd (hc.trans hs2) (not_lt.2 hlt.le)
  have hn3 : ¬ (triggerLevel * 3 < level h3) := by
    intro hc; exact absurd (hc.trans hs3) (not_lt.2 hlt.le)
  constructor <;>
    simp [framePairs, runEvents, stepEvent, initState, hg1, hg2, hn1, hn2, hn3,
      callOutput_calls, bufferMaxSize]

theorem claim2_amended_witness :
    (runEvents okBackend (framePairs [fMid, fMid, fQuiet, fQuiet]) initState).2.calls
      = []
    ∧ (runEvents okBackend
        (framePairs [fMid, fMid, fQuiet, fQuiet, fQuiet]) initState).2.calls
      = [[fMid, fMid, fQuiet, fQuiet, fQuiet]] :=
  claim2_amended okBackend fMid fMid fQuiet fQuiet fQuiet fMid_not_loud
    fMid_not_loud fQuiet_subthreshold fQuiet_subthreshold fQuiet_subthreshold

end WhisperTyping

namespace WhisperTyping

/-- C3 counterexample: the code contains no hallucination filter.  The
segment "Thank you." is non-empty after stripping, so the `run` loop
emits it on `transcription_done` and types it with a trailing space —
the claim that it is dropped (neither emitted nor typed) is false. -/
theorem claim3_counterexample :
    (processSegments true ["Thank you."]).1 = ["Thank you."]
    ∧ (processSegments true ["Thank you."]).2 = ["Thank you. "]
    ∧ ["Thank you."] ≠ ([] : List String) := by
  refine ⟨?_, ?_, by simp⟩ <;> rfl

/-- C3 amended: after stripping whitespace the `run` loop drops a
returned segment exactly when the stripped text is empty; no
filler-phrase set and no trigger-substring rule exist, so "Thank you."
passes through (emitted and typed) just like the longer sentence
"Hello, thank you for calling about the order", while a whitespace-only
segment is dropped. -/
theorem claim3_amended :
    (∀ (autoType : Bool) (segs : List String),
      (processSegments autoType segs).1
        = (segs.map pyStrip).filter (fun t => t ≠ ""))
    ∧ (processSegments true ["Hello, thank you for calling about the order"]).1
        = ["Hello, thank you for calling about the order"]
    ∧ (processSegments true ["Thank you."]).1 = ["Thank you."]
    ∧ (processSegments true ["   "]).1 = []
    ∧ (processSegments true ["   "]).2 = [] := by
  exact ⟨processSegments_emitted, rfl, rfl, rfl, rfl⟩

/-- C4 counterexample: a failed transcription call is not retried.  With
a backend that always raises, the single chunk triggered by one loud
frame causes exactly one backend invocation, not the two the claimed
retry-once policy would produce. -/
theorem claim4_counterexample :
    (runEvents failBackend [.submit fLoud, .poll] initState).2.calls = [[fLoud]]
    ∧ (runEvents failBackend [.submit fLoud, .poll] initState).2.calls.length
        ≠ 2 := by
  have h : (runEvents failBackend [.submit fLoud, .poll] initState).2.calls
      = [[fLoud]] := by
    simp [runEvents, stepEvent, initState, fLoud_loud, callOutput,
      failBackend, bufferMaxSize]
  exact ⟨h, by rw [h]; simp⟩

/-- C4 amended: there is no retry anywhere in the loop.  A chunk whose
call raises is dropped after exactly its one invocation with nothing
emitted or typed, and the failure leaves the loop unaffected: the
controller state and the whole sequence of backend invocations are
independent of backend outcomes, and later chunks still trigger their
own single call each. -/
theorem claim4_amended :
    (∀ (b1 b2 : Backend) (es : List Event) (s : SysState),
      (runEvents b1 es s).1 = (runEvents b2 es s).1
      ∧ (runEvents b1 es s).2.calls = (runEvents b2 es s).2.calls)
    ∧ (∀ (es : List Event) (s : SysState),
        (runEvents failBackend es s).2.emitted = []
        ∧ (runEvents failBackend es s).2.typed = [])
    ∧ (runEvents failBackend
        [.submit fLoud, .poll, .submit fLoud, .poll] initState).2.calls
      = [[fLoud], [fLoud]] := by
  refine ⟨fun b1 b2 es s => ⟨(runEvents_backend_agnostic b1 b2 es s).1,
      (runEvents_backend_agnostic b1 b2 es s).2.1⟩,
    fun es s => runEvents_err_silent es s, ?_⟩
  simp [runEvents, stepEvent, initState, fLoud_loud, callOutput,
    failBackend, bufferMaxSize]

/-- C5: once the `run` loop observes `stop()` (the `running = False`
write), no further transcription call is ever started — the calls of any
trace are unchanged by whatever follows the stop event — and in the
scenario where five buffered frames trigger one call and `stop()`
arrives right after, exactly one backend invocation happens in total.
The call triggered before the stop runs to completion (its chunk and
output are in the trace), matching `stop()` joining the thread via
`self.wait()`. -/
theorem claim5_stop_quiesce :
    (∀ (b : Backend) (tr tr2 : List Event) (s : SysState),
      (runEvents b (tr ++ .stop :: tr2) s).2.calls
        = (runEvents b (tr ++ [.stop]) s).2.calls)
    ∧ (runEvents okBackend
        (framePairs [fQuiet, fQuiet, fQuiet, fQuiet, fQuiet] ++ [.stop])
        initState).2.calls.length = 1 := by
  constructor
  · intro b tr tr2 s
    rw [runEvents_append b tr (.stop :: tr2) s,
      runEvents_append b tr [.stop] s]
    simp only [Output.append_calls]
    congr 1
    have hrun : (stepEvent b (runEvents b tr s).1 .stop).1.running = false := rfl
    have h2 := (runEvents_not_running b tr2 _ hrun).2
    simp only [runEvents, Output.append_calls, h2, Output.empty_calls,
      List.append_nil]
  · have h1 : (runEvents okBackend
        (framePairs [fQuiet, fQuiet, fQuiet, fQuiet, fQuiet]) initState).2.calls
        = [[fQuiet, fQuiet, fQuiet, fQuiet, fQuiet]] := by
      simp [framePairs, runEvents, stepEvent, initState, fQuiet_not_loud,
        callOutput, okBackend, processSegments, bufferMaxSize]
    have h2 : ∀ (s : SysState), (runEvents okBackend [.stop] s).2.calls = [] :=
      fun _ => rfl
    rw [runEvents_append]
    simp [h1, h2]

end WhisperTyping

namespace WhisperTyping

/-- C6: a frame submitted while the controller is paused is discarded by
the callback — the whole trace has the same controller state, the same
backend calls (so the frame appears in no chunk triggered after any
resume) and the same emissions as the trace without that submission —
and while paused no step of any kind issues a transcription call. -/
theorem claim6_paused_discard (b : Backend) (tr1 tr2 : List Event) (f : Frame)
    (s : SysState) (hp : (runEvents b tr1 s).1.paused = true) :
    (runEvents b (tr1 ++ .submit f :: tr2) s).1
      = (runEvents b (tr1 ++ tr2) s).1
    ∧ (runEvents b (tr1 ++ .submit f :: tr2) s).2.calls
      = (runEvents b (tr1 ++ tr2) s).2.calls
    ∧ (runEvents b (tr1 ++ .submit f :: tr2) s).2.emitted
      = (runEvents b (tr1 ++ tr2) s).2.emitted
    ∧ (∀ (s2 : SysState) (e : Event), s2.paused = true →
        (stepEvent b s2 e).2.calls = []) := by
  have hsub := stepEvent_paused_submit b (runEvents b tr1 s).1 f hp
  have key : runEvents b (.submit f :: tr2) (runEvents b tr1 s).1
      = ((runEvents b tr2 (runEvents b tr1 s).1).1,
         Output.append ⟨[level f], [], [], []⟩
           (runEvents b tr2 (runEvents b tr1 s).1).2) := by
    simp only [runEvents, hsub]
  refine ⟨?_, ?_, ?_, fun s2 e hp2 => stepEvent_paused_calls b s2 e hp2⟩ <;>
    rw [runEvents_append b tr1 (.submit f :: tr2) s,
      runEvents_append b tr1 tr2 s, key] <;>
    simp

theorem claim6_paused_discard_witness :
    (runEvents okBackend [.togglePause] initState).1.paused = true
    ∧ (runEvents okBackend ([.togglePause] ++ .submit fQuiet :: [.poll])
        initState).2.calls
      = (runEvents okBackend ([.togglePause] ++ [.poll]) initState).2.calls :=
  ⟨rfl,
    (claim6_paused_discard okBackend [.togglePause] [.poll] fQuiet initState
      rfl).2.1⟩

/-- C7: for every incoming frame the audio callback computes the mean of
the absolute sample values and emits it on `audio_level_update`
unconditionally: along any trace — paused or not — the emitted levels
are exactly the levels of the submitted frames, in order. -/
theorem claim7_level_emission :
    (∀ (b : Backend) (es : List Event) (s : SysState),
      (runEvents b es s).2.levels = (submittedFrames es).map level)
    ∧ (∀ f : Frame,
        level f
          = (f.samples.map (fun x => |x|)).sum / (f.samples.length : ℚ)) :=
  ⟨runEvents_levels_eq, fun _ => rfl⟩

/-- C9: along any trace the concatenation of all triggered chunks
followed by the residual buffer equals the initial buffer followed by
the accepted frames in order — every accepted frame belongs to exactly
one triggered chunk, none is transcribed twice — and any step that
issues a backend call leaves the buffer reset to empty (the flush
happens before the call inside the step). -/
theorem claim9_buffer_partition :
    (∀ (b : Backend) (es : List Event) (s : SysState),
      ((runEvents b es s).2.calls).flatten ++ (runEvents b es s).1.buffer
        = s.buffer ++ acceptedFrames b es s)
    ∧ (∀ (b : Backend) (s : SysState) (e : Event),
        (stepEvent b s e).2.calls = [] ∨ (stepEvent b s e).1.buffer = []) :=
  ⟨runEvents_partition, stepEvent_calls_or_buffer⟩

end WhisperTyping

namespace HFWhisper

/-- C8: the HTTP adapter normalises both response shapes into the same
segment-list form: the whole-utterance body with text "hi" and the
one-item segmented body with text "hi" both yield a single segment with
text "hi"; a missing start or end defaults to 0.0 and a missing language
defaults to the fallback code "en". -/
theorem claim8_normalization :
    hfTranscribe (.ok 200 (some (.dict ⟨some "hi", none⟩)))
      = ([⟨"hi", 0, 0⟩], ⟨"en", 1⟩)
    ∧ hfTranscribe (.ok 200 (some (.list [⟨some "hi", some 0, some 1, none⟩])))
      = ([⟨"hi", 0, 1⟩], ⟨"en", 1⟩)
    ∧ (∀ t : String,
        hfTranscribe (.ok 200 (some (.list [⟨some t, none, none, none⟩])))
          = ([⟨t, 0, 0⟩], ⟨"en", 1⟩))
    ∧ (∀ t : String,
        hfTranscribe (.ok 200 (some (.dict ⟨some t, none⟩)))
          = ([⟨t, 0, 0⟩], ⟨"en", 1⟩)) := by
  refine ⟨?_, ?_, fun t => ?_, fun t => ?_⟩ <;>
    simp [hfTranscribe, parseResult]

/-- C10: `transcribe` never propagates an API failure: a non-200 status,
a raised request, or an unparsable body all return the empty segment
list with info ("en", 0.0), and the controller's segment loop applied to
an empty segment list emits and types nothing, so the chunk is silently
dropped. -/
theorem claim10_error_containment (status : Nat) (body : Option ApiJson)
    (h : status ≠ 200) :
    hfTranscribe (.ok status body) = ([], ⟨"en", 0⟩)
    ∧ hfTranscribe .exn = ([], ⟨"en", 0⟩)
    ∧ hfTranscribe (.ok 200 none) = ([], ⟨"en", 0⟩)
    ∧ (WhisperTyping.processSegments true []).1 = []
    ∧ (WhisperTyping.processSegments true []).2 = [] := by
  refine ⟨?_, rfl, rfl, rfl, rfl⟩
  simp [hfTranscribe, h]

theorem claim10_error_containment_witness :
    hfTranscribe (.ok 503 none) = ([], ⟨"en", 0⟩) :=
  (claim10_error_containment 503 none (by decide)).1

end HFWhisper
